import Mathlib

/-!
Verification development for the TeleCIMENTO evaluation backend (`app.py`).

The file shallowly embeds the core of the Flask application: the SQLite
state (tables `avaliacoes`, `controle_votacao`, `logs_sistema`), the
vote-eligibility check `has_voted_today`, the handlers
`submit_evaluation`, `get_evaluations`, `reset_timer`, `get_statistics`,
and the helpers `is_same_day` / `get_brazil_time`.

Conventions of the embedding:
* Instants are minutes since the civil epoch 1970-01-01 (UTC), as `Int`.
* `America/Sao_Paulo` is modelled as the fixed offset UTC-03:00 (Brazil
  abolished daylight saving in 2019, so the offset is constant for all
  times the running system observes).
* Python `datetime` values are records of their civil fields plus an
  optional UTC offset in minutes; `.date()` reads the civil date fields
  as written, with no timezone conversion, exactly as in CPython.
* Fallible Python code (exceptions caught by the handlers' `try`/`except`)
  is modelled with `Option`/`Except`.
-/

/-- Calendar date, as Python's `datetime.date`: plain civil fields. -/
structure Date where
  year : Int
  month : Nat
  day : Nat
deriving DecidableEq, Repr

/-- A parsed Python `datetime`: civil fields plus optional UTC offset in
minutes (`tzinfo`).  Only the fields the program reads are kept. -/
structure PyDateTime where
  date : Date
  hour : Nat
  minute : Nat
  second : Nat
  tzoffset : Option Int
deriving DecidableEq, Repr

/-- Gregorian leap-year rule. -/
def isLeap (y : Int) : Bool := y % 4 == 0 && (y % 100 != 0 || y % 400 == 0)

/-- Number of days in a month (for `fromisoformat`'s day-range validation). -/
def daysInMonth (y : Int) (m : Nat) : Nat :=
  if m = 2 then (if isLeap y then 29 else 28)
  else if m = 4 ∨ m = 6 ∨ m = 9 ∨ m = 11 then 30
  else 31

/-- Day count of a civil date relative to 1970-01-01 (standard
era-decomposition algorithm for the proleptic Gregorian calendar). -/
def daysFromCivil (d : Date) : Int :=
  let y : Int := if d.month ≤ 2 then d.year - 1 else d.year
  let era : Int := Int.fdiv y 400
  let yoe : Nat := (y - era * 400).toNat
  let mp : Nat := (d.month + 9) % 12
  let doy : Nat := (153 * mp + 2) / 5 + d.day - 1
  let doe : Nat := yoe * 365 + yoe / 4 - yoe / 100 + doy
  era * 146097 + (doe : Int) - 719468

/-- Civil date of a day count relative to 1970-01-01 (inverse of
`daysFromCivil` on valid dates). -/
def civilFromDays (z0 : Int) : Date :=
  let z : Int := z0 + 719468
  let era : Int := Int.fdiv z 146097
  let doe : Nat := (z - era * 146097).toNat
  let yoe : Nat := (doe - doe / 1460 + doe / 36524 - doe / 146096) / 365
  let y : Int := (yoe : Int) + era * 400
  let doy : Nat := doe - (365 * yoe + yoe / 4 - yoe / 100)
  let mp : Nat := (5 * doy + 2) / 153
  let d : Nat := doy - (153 * mp + 2) / 5 + 1
  let m : Nat := if mp < 10 then mp + 3 else mp - 9
  ⟨if m ≤ 2 then y + 1 else y, m, d⟩

/-- Offset of `America/Sao_Paulo` from UTC, in minutes (fixed -03:00). -/
def spOffsetMinutes : Int := -180

/-- Model of `get_brazil_time()`: `datetime.now(TIMEZONE)` at absolute instant
`now` (minutes since epoch, UTC), i.e. the current São Paulo civil time. -/
def get_brazil_time (now : Int) : PyDateTime :=
  let lm : Int := now + spOffsetMinutes
  let dayN : Int := Int.fdiv lm 1440
  let rem : Nat := (lm - dayN * 1440).toNat
  ⟨civilFromDays dayN, rem / 60, rem % 60, 0, some spOffsetMinutes⟩

/-- Model of `is_same_day(date1, date2)`: `date1.date() == date2.date()` — the
civil date fields are compared as written, with no timezone conversion. -/
def is_same_day (date1 date2 : PyDateTime) : Bool := date1.date == date2.date

/-! ### The ISO-8601 parser (`datetime.fromisoformat`)

`has_voted_today` calls
`datetime.fromisoformat(stored.replace('Z', '+00:00'))`.  We model the
`str.replace` (every `'Z'` character becomes `+00:00`) and the
`fromisoformat` grammar `YYYY-MM-DD[<sep>HH[:MM[:SS[.fff[fff]]]][±HH:MM]]`
with the same range validation CPython performs; any other input yields
`none` (the `ValueError` the handler catches). -/

/-- Python `str.replace('Z', '+00:00')` over the character list. -/
def replaceZ : List Char → List Char
  | [] => []
  | c :: cs =>
    if c = 'Z' then '+' :: '0' :: '0' :: ':' :: '0' :: '0' :: replaceZ cs
    else c :: replaceZ cs

/-- Value of a decimal digit character, if it is one. -/
def digitVal? (c : Char) : Option Nat :=
  if c.isDigit then some (c.toNat - 48) else none

/-- Read exactly two digit characters. -/
def parse2 : List Char → Option (Nat × List Char)
  | a :: b :: rest => do
    let x ← digitVal? a
    let y ← digitVal? b
    pure (10 * x + y, rest)
  | _ => none

/-- Read exactly four digit characters. -/
def parse4 : List Char → Option (Nat × List Char)
  | a :: b :: c :: d :: rest => do
    let x ← digitVal? a
    let y ← digitVal? b
    let z ← digitVal? c
    let w ← digitVal? d
    pure (1000 * x + 100 * y + 10 * z + w, rest)
  | _ => none

/-- Require character `c` next. -/
def expectChar (c : Char) : List Char → Option (List Char)
  | x :: rest => if x = c then some rest else none
  | [] => none

/-- Date part `YYYY-MM-DD` with month/day range validation. -/
def parseDate (cs : List Char) : Option (Date × List Char) := do
  let (y, r1) ← parse4 cs
  let r2 ← expectChar '-' r1
  let (m, r3) ← parse2 r2
  let r4 ← expectChar '-' r3
  let (d, r5) ← parse2 r4
  if 1 ≤ m ∧ m ≤ 12 ∧ 1 ≤ d ∧ d ≤ daysInMonth (y : Int) m then
    pure (⟨(y : Int), m, d⟩, r5)
  else none

/-- Fractional seconds: `.` followed by exactly 3 or 6 digits (the value
is discarded — the program never reads sub-second precision). -/
def parseFrac (cs : List Char) : Option (List Char) :=
  let digits := cs.takeWhile Char.isDigit
  if digits.length = 3 ∨ digits.length = 6 then some (cs.drop digits.length)
  else none

/-- Time part `HH[:MM[:SS[.fff[fff]]]]` with range validation. -/
def parseTime (cs : List Char) : Option ((Nat × Nat × Nat) × List Char) := do
  let (hh, r1) ← parse2 cs
  if hh ≥ 24 then none else
  match r1 with
  | ':' :: r2 => do
    let (mm, r3) ← parse2 r2
    if mm ≥ 60 then none else
    match r3 with
    | ':' :: r4 => do
      let (ss, r5) ← parse2 r4
      if ss ≥ 60 then none else
      match r5 with
      | '.' :: r6 => do
        let r7 ← parseFrac r6
        pure ((hh, mm, ss), r7)
      | _ => pure ((hh, mm, ss), r5)
    | _ => pure ((hh, mm, 0), r3)
  | _ => pure ((hh, 0, 0), r1)

/-- Optional UTC offset `±HH:MM`; absent input means a naive datetime. -/
def parseOffset : List Char → Option (Option Int × List Char)
  | [] => some (none, [])
  | '+' :: r => do
    let ((h, m, _), r') ← parseTime r
    pure (some ((h : Int) * 60 + m), r')
  | '-' :: r => do
    let ((h, m, _), r') ← parseTime r
    pure (some (-((h : Int) * 60 + m)), r')
  | _ => none

/-- Model of `datetime.fromisoformat`: date part, then (after one separator
character, conventionally `T`) the time and optional offset; the whole
string must be consumed. -/
def parse_iso (cs : List Char) : Option PyDateTime :=
  match parseDate cs with
  | none => none
  | some (d, rest) =>
    match rest with
    | [] => some ⟨d, 0, 0, 0, none⟩
    | _ :: tcs =>
      match parseTime tcs with
      | none => none
      | some ((hh, mm, ss), r) =>
        match parseOffset r with
        | none => none
        | some (off, r2) => if r2 = [] then some ⟨d, hh, mm, ss, off⟩ else none

/-! ### JSON serialization of the `setores` mapping

`submit_evaluation` stores `json.dumps(data.get('setores', {}))` in the
`setores` TEXT column and `get_evaluations` reads it back with
`json.loads`.  The spec's data model restricts `setores` to a flat
mapping from sector name to numeric sub-rating, so the embedding models
`json.dumps`/`json.loads` on flat string-to-nat objects in the canonical
format `dumps` emits (separators `', '` and `': '`).  String escaping is
restricted to the two characters that make the encoding injective
(backslash and double quote); CPython's additional `\uXXXX`/control-char
escapes are equally lossless, so the round-trip behaviour is the same. -/

/-- A flat sector mapping: sector name (as characters) to sub-rating. -/
abbrev SectorMap := List (List Char × Nat)

/-- Left brace character (code 123). -/
def lbrace : Char := Char.ofNat 123

/-- Right brace character (code 125). -/
def rbrace : Char := Char.ofNat 125

/-- Double-quote character (code 34). -/
def dquote : Char := Char.ofNat 34

/-- Backslash character (code 92). -/
def bslash : Char := Char.ofNat 92

/-- JSON string escaping of one character. -/
def escapeChar (c : Char) : List Char :=
  if c = bslash ∨ c = dquote then [bslash, c] else [c]

/-- JSON string escaping. -/
def escapeStr : List Char → List Char
  | [] => []
  | c :: cs => escapeChar c ++ escapeStr cs

/-- Decimal digit character of `n < 10`. -/
def digitChar (n : Nat) : Char := Char.ofNat (48 + n)

/-- Decimal rendering of a natural number (`fuel`-structured so that the
kernel can evaluate it; `fuel` bounds the number of digits). -/
def natToDecimalAux : Nat → Nat → List Char
  | 0, _ => []
  | fuel + 1, n =>
    if n < 10 then [digitChar n]
    else natToDecimalAux fuel (n / 10) ++ [digitChar (n % 10)]

/-- Decimal rendering of a natural number, as Python's `str(int)`. -/
def natToDecimal (n : Nat) : List Char := natToDecimalAux (n + 1) n

/-- One `"key": value` fragment of `json.dumps`. -/
def dumpsPair (k : List Char) (v : Nat) : List Char :=
  dquote :: escapeStr k ++ dquote :: ':' :: ' ' :: natToDecimal v

/-- The comma-separated pair list of `json.dumps`. -/
def dumpsPairs : SectorMap → List Char
  | [] => []
  | [(k, v)] => dumpsPair k v
  | (k, v) :: ps => dumpsPair k v ++ ',' :: ' ' :: dumpsPairs ps

/-- Model of `json.dumps` on a flat sector mapping. -/
def dumps (m : SectorMap) : List Char := lbrace :: dumpsPairs m ++ [rbrace]

/-- JSON string-literal body parser: consumes up to the closing quote,
undoing the escapes `escapeStr` introduces. -/
def parseJStr : List Char → Option (List Char × List Char)
  | [] => none
  | c :: rest =>
    if c = dquote then some ([], rest)
    else if c = bslash then
      match rest with
      | [] => none
      | e :: rest' =>
        if e = bslash ∨ e = dquote then
          (parseJStr rest').map (fun p => (e :: p.1, p.2))
        else none
    else (parseJStr rest).map (fun p => (c :: p.1, p.2))

/-- Decimal-number scanner: accumulates digits, stops at the first
non-digit. -/
def parseNatAux : Nat → List Char → Nat × List Char
  | acc, [] => (acc, [])
  | acc, c :: cs =>
    if c.isDigit then parseNatAux (10 * acc + (c.toNat - 48)) cs
    else (acc, c :: cs)

/-- Decimal-number parser: requires at least one leading digit. -/
def parseNat : List Char → Option (Nat × List Char)
  | [] => none
  | c :: cs => if c.isDigit then some (parseNatAux 0 (c :: cs)) else none

/-- One `"key": value` pair parser. -/
def parsePair (cs : List Char) : Option ((List Char × Nat) × List Char) :=
  match cs with
  | c :: rest =>
    if c = dquote then do
      let (k, r1) ← parseJStr rest
      match r1 with
      | ':' :: ' ' :: r2 => do
        let (v, r3) ← parseNat r2
        some ((k, v), r3)
      | _ => none
    else none
  | [] => none

/-- Non-empty pair-sequence parser, ending at the closing brace
(`fuel` bounds the number of pairs). -/
def parsePairs : Nat → List Char → Option (SectorMap × List Char)
  | 0, _ => none
  | fuel + 1, cs =>
    match parsePair cs with
    | none => none
    | some (p, r1) =>
      match r1 with
      | [] => none
      | c :: r2 =>
        if c = rbrace then some ([p], r2)
        else if c = ',' then
          match r2 with
          | ' ' :: r3 =>
            match parsePairs fuel r3 with
            | none => none
            | some (ps, r4) => some (p :: ps, r4)
          | _ => none
        else none

/-- Model of `json.loads`, restricted to the canonical flat objects `dumps`
produces; any other input is a decode failure (`none`). -/
def loads (cs : List Char) : Option SectorMap :=
  match cs with
  | c :: rest =>
    if c = lbrace then
      match rest with
      | d :: rest2 =>
        if d = rbrace ∧ rest2 = [] then some []
        else
          match parsePairs cs.length rest with
          | some (ps, []) => some ps
          | _ => none
      | [] => none
    else none
  | [] => none

/-! ### The database state and the handlers

The SQLite schema of `init_database` becomes three row types and a state
record.  Bookkeeping columns the program never reads back
(`created_at`, `updated_at`) are not represented.  A handler is a pure
function from the current instant and the state to a result and the
post-commit state; an exception raised before `conn.commit()` rolls the
transaction back, which the embedding renders as returning the input
state unchanged. -/

/-- A row of the `avaliacoes` table.  `setores` and `feedback` are
nullable columns, hence `Option`; `setores` holds serialized JSON text. -/
structure EvalRow where
  id : String
  dispositivo_id : String
  timestamp : String
  avaliacao_geral : String
  setores : Option (List Char)
  feedback : Option String
deriving DecidableEq, Repr

/-- A row of the `controle_votacao` table (primary key `dispositivo_id`). -/
structure VoteRow where
  dispositivo_id : String
  ultimo_voto : String
deriving DecidableEq, Repr

/-- A row of the `logs_sistema` table. -/
structure LogRow where
  acao : String
  detalhes : String
deriving DecidableEq, Repr

/-- The whole persistent store. -/
structure DBState where
  avaliacoes : List EvalRow
  controle_votacao : List VoteRow
  logs_sistema : List LogRow
deriving DecidableEq, Repr

/-- The query `SELECT ... FROM controle_votacao WHERE dispositivo_id = ?` with
`fetchone()`: the first matching row, if any. -/
def lookupVote (l : List VoteRow) (d : String) : Option VoteRow :=
  l.find? (fun r => r.dispositivo_id == d)

/-- The statement `INSERT OR REPLACE INTO controle_votacao`: SQLite deletes any row
with the same primary key and inserts the new one. -/
def upsertVote (l : List VoteRow) (v : VoteRow) : List VoteRow :=
  l.filter (fun r => ¬ r.dispositivo_id == v.dispositivo_id) ++ [v]

/-- The body of `has_voted_today` given the outcome of the store read
(`.error` models the store being unreachable; both the failed read and a
failed `fromisoformat` land in the `except` branch, which logs the cause
and returns `False`). -/
def has_voted_today_from (now : Int) (read : Except String (Option VoteRow)) : Bool :=
  match read with
  | .error _ => false
  | .ok none => false
  | .ok (some row) =>
    match parse_iso (replaceZ row.ultimo_voto.data) with
    | none => false
    | some ultimo_voto => is_same_day ultimo_voto (get_brazil_time now)

/-- Model of `has_voted_today(dispositivo_id)` against a healthy store. -/
def has_voted_today (now : Int) (st : DBState) (dispositivo_id : String) : Bool :=
  has_voted_today_from now (.ok (lookupVote st.controle_votacao dispositivo_id))

/-- Outcome of `submit_evaluation`, tagged with the JSON error payload
the handler builds. -/
inductive SubmitOutcome where
  /-- Status 200: `'Avaliação salva com sucesso'`, echoing the id. -/
  | ok (id : String)
  /-- Status 400: `'Campo obrigatório ausente: <field>'`. -/
  | missingField (field : String)
  /-- Status 409: `'Dispositivo já votou hoje'`. -/
  | alreadyVoted
  /-- Status 500: the `sqlite3.IntegrityError` of a duplicate primary key,
  caught by the handler's generic `except`. -/
  | integrityError
deriving DecidableEq, Repr

/-- HTTP status code of each submit outcome. -/
def SubmitOutcome.status : SubmitOutcome → Nat
  | .ok _ => 200
  | .missingField _ => 400
  | .alreadyVoted => 409
  | .integrityError => 500

/-- The JSON body POSTed to `/api/submit-evaluation`: each field is
`some` when the key is present.  `setores` is restricted to the spec's
flat sector mapping. -/
structure Payload where
  id : Option String
  dispositivoId : Option String
  timestamp : Option String
  avaliacaoGeral : Option String
  setores : Option SectorMap
  feedback : Option String
deriving Repr

/-- Model of `submit_evaluation`: field validation in source order, the
same-day check, then the transactional insert plus vote-control upsert
and the audit log append. -/
def submit_evaluation (now : Int) (st : DBState) (p : Payload) :
    SubmitOutcome × DBState :=
  match p.id with
  | none => (.missingField "id", st)
  | some pid =>
  match p.dispositivoId with
  | none => (.missingField "dispositivoId", st)
  | some dispositivo_id =>
  match p.timestamp with
  | none => (.missingField "timestamp", st)
  | some ts =>
  match p.avaliacaoGeral with
  | none => (.missingField "avaliacaoGeral", st)
  | some ag =>
  if has_voted_today now st dispositivo_id then (.alreadyVoted, st)
  else if st.avaliacoes.any (fun r => r.id == pid) then (.integrityError, st)
  else
    let row : EvalRow :=
      { id := pid, dispositivo_id := dispositivo_id, timestamp := ts,
        avaliacao_geral := ag,
        setores := some (dumps (p.setores.getD [])),
        feedback := some (p.feedback.getD "") }
    let vrow : VoteRow := { dispositivo_id := dispositivo_id, ultimo_voto := ts }
    let log : LogRow :=
      { acao := "AVALIACAO_ENVIADA",
        detalhes := "Dispositivo: " ++ dispositivo_id ++ ", Avaliação: " ++ ag }
    (.ok pid,
     { avaliacoes := st.avaliacoes ++ [row],
       controle_votacao := upsertVote st.controle_votacao vrow,
       logs_sistema := st.logs_sistema ++ [log] })

/-- One evaluation dictionary of the `/api/evaluations` response. -/
structure EvalView where
  id : String
  dispositivoId : String
  timestamp : String
  avaliacaoGeral : String
  setores : SectorMap
  feedback : String
deriving DecidableEq, Repr

/-- The response dictionary built for one row: a falsy (`NULL` or empty)
`setores` column becomes the empty mapping, otherwise the stored text is
decoded (a decode failure raises, failing the whole request).  The
`row['feedback'] or ''` fallback sends both `NULL` and `''` to `''` and
keeps any other string, which is exactly `Option.getD` at `""`. -/
def rowView (r : EvalRow) : Option EvalView :=
  match r.setores with
  | none =>
    some ⟨r.id, r.dispositivo_id, r.timestamp, r.avaliacao_geral, [], r.feedback.getD ""⟩
  | some s =>
    if s = [] then
      some ⟨r.id, r.dispositivo_id, r.timestamp, r.avaliacao_geral, [], r.feedback.getD ""⟩
    else
      (loads s).map fun m =>
        ⟨r.id, r.dispositivo_id, r.timestamp, r.avaliacao_geral, m, r.feedback.getD ""⟩

/-- The row loop of `get_evaluations`: builds the dictionaries in cursor
order; the first raising row aborts the request (`none` ⇒ 500). -/
def buildViews : List EvalRow → Option (List EvalView)
  | [] => some []
  | r :: rs =>
    match rowView r with
    | none => none
    | some v =>
      match buildViews rs with
      | none => none
      | some vs => some (v :: vs)

/-- The TEXT ordering SQLite applies in `ORDER BY timestamp`: bytewise
memcmp over the UTF-8 encoding, which on valid UTF-8 coincides with
lexicographic comparison of code points. -/
def strLeB : List Char → List Char → Bool
  | [], _ => true
  | _ :: _, [] => false
  | a :: as, b :: bs =>
    if a.toNat < b.toNat then true
    else if b.toNat < a.toNat then false
    else strLeB as bs

/-- The order `ORDER BY timestamp DESC`: row `a` precedes row `b` when `a`'s
timestamp is the larger in the store's TEXT order. -/
def tsGe (a b : EvalRow) : Prop := strLeB b.timestamp.data a.timestamp.data = true

instance : DecidableRel tsGe :=
  fun a b => inferInstanceAs (Decidable (strLeB b.timestamp.data a.timestamp.data = true))

instance : IsTotal EvalRow tsGe := by
  constructor
  intro a b
  unfold tsGe
  generalize b.timestamp.data = xs
  generalize a.timestamp.data = ys
  induction xs generalizing ys with
  | nil => exact Or.inl rfl
  | cons x xs ih =>
    cases ys with
    | nil => exact Or.inr rfl
    | cons y ys' =>
      by_cases h1 : x.toNat < y.toNat
      · left
        simp [strLeB, h1]
      · by_cases h2 : y.toNat < x.toNat
        · right
          simp [strLeB, h1, h2]
        · rcases ih ys' with h | h
          · left
            simpa [strLeB, h1, h2] using h
          · right
            simpa [strLeB, h1, h2] using h

instance : IsTrans EvalRow tsGe := by
  constructor
  intro a b c h1 h2
  unfold tsGe at h1 h2 ⊢
  revert h1 h2
  generalize c.timestamp.data = xs
  generalize b.timestamp.data = ys
  generalize a.timestamp.data = zs
  intro h1 h2
  induction xs generalizing ys zs with
  | nil => rfl
  | cons x xs ih =>
    cases ys with
    | nil => simp [strLeB] at h2
    | cons y ys' =>
      cases zs with
      | nil => simp [strLeB] at h1
      | cons z zs' =>
        simp only [strLeB] at h1 h2 ⊢
        split_ifs at h1 h2 ⊢ <;>
          first
          | rfl
          | (exfalso; omega)
          | (exact ih ys' zs' h1 h2)

/-- Model of `GET /api/evaluations`: all rows, most recent client timestamp
first; `none` models the 500 response when a row fails to decode. -/
def get_evaluations (st : DBState) : Option (List EvalView) :=
  buildViews (List.insertionSort tsGe st.avaliacoes)

/-- Model of `POST /api/reset-timer`: `DELETE FROM controle_votacao`, then the
audit log append; evaluations are untouched. -/
def reset_timer (st : DBState) : DBState :=
  { st with
    controle_votacao := [],
    logs_sistema := st.logs_sistema ++
      [{ acao := "TIMER_RESETADO", detalhes := "Timer de votação resetado manualmente" }] }

/-- Whether a row satisfies `feedback IS NOT NULL AND feedback != ""`. -/
def feedbackNonEmpty (r : EvalRow) : Bool :=
  match r.feedback with
  | none => false
  | some f => !(f == "")

/-- Whether `DATE(timestamp)` equals today's São Paulo date (the SQLite
date extraction is modelled with the same ISO parser; an unparseable
timestamp yields SQL `NULL`, which never compares equal). -/
def timestampIsToday (now : Int) (r : EvalRow) : Bool :=
  match parse_iso r.timestamp.data with
  | some dt => dt.date == (get_brazil_time now).date
  | none => false

/-- The `statistics` dictionary of `/api/statistics`. -/
structure Stats where
  totalAvaliacoes : Nat
  avaliacoesHoje : Nat
  distribuicao : List (String × Nat)
  totalFeedbacks : Nat
deriving DecidableEq, Repr

/-- Model of `GET /api/statistics`: `COUNT(*)`, today's count, the
`GROUP BY avaliacao_geral` counts, and the non-empty feedback count. -/
def get_statistics (now : Int) (st : DBState) : Stats :=
  { totalAvaliacoes := st.avaliacoes.length,
    avaliacoesHoje := (st.avaliacoes.filter (timestampIsToday now)).length,
    distribuicao :=
      ((st.avaliacoes.map (fun r => r.avaliacao_geral)).dedup).map
        (fun v => (v, (st.avaliacoes.filter (fun r => r.avaliacao_geral == v)).length)),
    totalFeedbacks := (st.avaliacoes.filter feedbackNonEmpty).length }

/-! ### The spec's reading of the eligibility check (for comparison)

Section 4.1 of the spec describes `hasVotedToday` as comparing the
stored timestamp's calendar date *in the fixed local timezone* with
today's date in that timezone.  The following definitions transcribe
those words so they can be compared with the code's `has_voted_today`. -/

/-- Modelled from the spec: the timezone-aware instant (minutes since
epoch, UTC) denoted by a parsed timestamp; following the spec's fixed
civil timezone, a naive timestamp is read as São Paulo local time. -/
def aware_instant (dt : PyDateTime) : Int :=
  daysFromCivil dt.date * 1440 + (dt.hour : Int) * 60 + (dt.minute : Int)
    - dt.tzoffset.getD spOffsetMinutes

/-- Modelled from the spec: the calendar date of an absolute instant in
the fixed local timezone `America/Sao_Paulo`. -/
def sp_date_of_instant (i : Int) : Date :=
  civilFromDays (Int.fdiv (i + spOffsetMinutes) 1440)

/-- Modelled from the spec: `hasVotedToday` as §4.1 words it — parse
`lastVoteAt` into a timezone-aware instant and compare its calendar
date in the fixed local timezone against today's date in that timezone. -/
def hasVotedTodaySpec (now : Int) (st : DBState) (dispositivo_id : String) : Bool :=
  match lookupVote st.controle_votacao dispositivo_id with
  | none => false
  | some row =>
    match parse_iso (replaceZ row.ultimo_voto.data) with
    | none => false
    | some dt => sp_date_of_instant (aware_instant dt) == sp_date_of_instant now

/-- The input does not start with a digit (a decimal scanner run before
it stops exactly at the boundary). -/
def headNotDigit : List Char → Bool
  | [] => true
  | c :: _ => !c.isDigit

/-! ### Round-trip of the sector serialization -/


theorem digitChar_spec :
    ∀ d, d < 10 → (digitChar d).isDigit = true ∧ (digitChar d).toNat - 48 = d := by
  decide

theorem parseNatAux_cons_digit (acc : Nat) (c : Char) (cs : List Char)
    (h : c.isDigit = true) :
    parseNatAux acc (c :: cs) = parseNatAux (10 * acc + (c.toNat - 48)) cs := by
  rw [parseNatAux.eq_def]
  simp [h]

theorem parseNatAux_stop (acc : Nat) (cs : List Char) (h : headNotDigit cs = true) :
    parseNatAux acc cs = (acc, cs) := by
  cases cs with
  | nil => rfl
  | cons c cs' =>
    have hc : c.isDigit = false := by simpa [headNotDigit] using h
    rw [parseNatAux.eq_def]
    simp [hc]

theorem parseNatAux_natToDecimalAux (fuel : Nat) :
    ∀ n acc rest, n < 10 ^ fuel →
    parseNatAux acc (natToDecimalAux fuel n ++ rest)
      = parseNatAux (acc * 10 ^ (natToDecimalAux fuel n).length + n) rest := by
  induction fuel with
  | zero =>
    intro n acc rest hn
    have hn0 : n = 0 := by simpa using hn
    subst hn0
    simp [natToDecimalAux]
  | succ fuel ih =>
    intro n acc rest hn
    by_cases h10 : n < 10
    · have hd := digitChar_spec n h10
      simp only [natToDecimalAux, if_pos h10, List.cons_append, List.nil_append]
      rw [parseNatAux_cons_digit _ _ _ hd.1, hd.2]
      congr 1
      simp only [List.length_cons, List.length_nil, pow_one]
      omega
    · have hn10 : n / 10 < 10 ^ fuel := by
        rw [pow_succ] at hn
        omega
      have hd := digitChar_spec (n % 10) (Nat.mod_lt n (by omega))
      simp only [natToDecimalAux, if_neg h10, List.append_assoc, List.cons_append,
        List.nil_append]
      rw [ih (n / 10) acc (digitChar (n % 10) :: rest) hn10]
      rw [parseNatAux_cons_digit _ _ _ hd.1, hd.2]
      congr 1
      simp only [List.length_append, List.length_cons, List.length_nil]
      rw [pow_succ, ← mul_assoc]
      generalize acc * 10 ^ (natToDecimalAux fuel (n / 10)).length = M
      omega

theorem natToDecimalAux_head :
    ∀ fuel n, 0 < fuel → n < 10 ^ fuel →
    ∃ d rest, d < 10 ∧ natToDecimalAux fuel n = digitChar d :: rest := by
  intro fuel
  induction fuel with
  | zero => omega
  | succ fuel ih =>
    intro n _ hn
    by_cases h10 : n < 10
    · exact ⟨n, [], h10, by simp [natToDecimalAux, h10]⟩
    · have hfuel : 0 < fuel := by
        rcases Nat.eq_zero_or_pos fuel with h | h
        · subst h
          rw [pow_one] at hn
          omega
        · exact h
      have hn10 : n / 10 < 10 ^ fuel := by
        rw [pow_succ] at hn
        omega
      obtain ⟨d, rest, hd, heq⟩ := ih (n / 10) hfuel hn10
      exact ⟨d, rest ++ [digitChar (n % 10)], hd, by simp [natToDecimalAux, h10, heq]⟩

theorem parseNat_natToDecimal (n : Nat) (rest : List Char)
    (hrest : headNotDigit rest = true) :
    parseNat (natToDecimal n ++ rest) = some (n, rest) := by
  have hn : n < 10 ^ (n + 1) :=
    lt_of_lt_of_le (Nat.lt_pow_self (by norm_num) n)
      (Nat.pow_le_pow_right (by norm_num) (Nat.le_succ n))
  obtain ⟨d, tail, hd, heq⟩ := natToDecimalAux_head (n + 1) n (Nat.succ_pos n) hn
  have hdig := digitChar_spec d hd
  have hrun : parseNatAux 0 (natToDecimal n ++ rest) = (n, rest) := by
    unfold natToDecimal
    rw [parseNatAux_natToDecimalAux (n + 1) n 0 rest hn]
    simp only [Nat.zero_mul, Nat.zero_add]
    exact parseNatAux_stop n rest hrest
  have hshape : natToDecimal n ++ rest = digitChar d :: (tail ++ rest) := by
    unfold natToDecimal
    rw [heq, List.cons_append]
  rw [hshape] at hrun ⊢
  rw [parseNat.eq_def]
  simp [hdig.1, hrun]

theorem parseJStr_escapeStr (k : List Char) :
    ∀ rest, parseJStr (escapeStr k ++ dquote :: rest) = some (k, rest) := by
  induction k with
  | nil =>
    intro rest
    show parseJStr (dquote :: rest) = some ([], rest)
    rw [parseJStr.eq_def]
    simp
  | cons c cs ih =>
    intro rest
    by_cases hc : c = bslash ∨ c = dquote
    · have hbq : ¬ (bslash = dquote) := by decide
      simp only [escapeStr, escapeChar, if_pos hc, List.cons_append, List.append_assoc,
        List.nil_append]
      rw [parseJStr.eq_def]
      simp [hbq, hc, ih rest]
    · push_neg at hc
      have hcond : ¬ (c = bslash ∨ c = dquote) := by
        simp [hc.1, hc.2]
      simp only [escapeStr, escapeChar, if_neg hcond, List.cons_append, List.nil_append]
      rw [parseJStr.eq_def]
      simp [hc.1, hc.2, ih rest]

theorem parsePair_dumpsPair (k : List Char) (v : Nat) (rest : List Char)
    (hrest : headNotDigit rest = true) :
    parsePair (dumpsPair k v ++ rest) = some ((k, v), rest) := by
  have hshape : dumpsPair k v ++ rest
      = dquote :: (escapeStr k ++ dquote :: (':' :: ' ' :: (natToDecimal v ++ rest))) := by
    unfold dumpsPair
    simp [List.cons_append, List.append_assoc]
  rw [hshape, parsePair.eq_def]
  simp only [if_pos rfl]
  rw [parseJStr_escapeStr]
  simp [parseNat_natToDecimal v rest hrest]

theorem parsePairs_succ (fuel : Nat) (cs : List Char) :
    parsePairs (fuel + 1) cs
      = match parsePair cs with
        | none => none
        | some (p, r1) =>
          match r1 with
          | [] => none
          | c :: r2 =>
            if c = rbrace then some ([p], r2)
            else if c = ',' then
              match r2 with
              | ' ' :: r3 =>
                match parsePairs fuel r3 with
                | none => none
                | some (ps, r4) => some (p :: ps, r4)
              | _ => none
            else none := rfl

theorem parsePairs_dumpsPairs :
    ∀ (m : SectorMap) (fuel : Nat), m ≠ [] → m.length ≤ fuel →
    parsePairs fuel (dumpsPairs m ++ [rbrace]) = some (m, []) := by
  intro m
  induction m with
  | nil => simp
  | cons p ps ih =>
    intro fuel _ hlen
    obtain ⟨k, v⟩ := p
    cases fuel with
    | zero => simp at hlen
    | succ fuel =>
      cases ps with
      | nil =>
        show parsePairs (fuel + 1) (dumpsPair k v ++ [rbrace]) = some ([(k, v)], [])
        rw [parsePairs_succ, parsePair_dumpsPair k v [rbrace] (by decide)]
        simp
      | cons p' ps' =>
        have hshape : dumpsPairs ((k, v) :: p' :: ps') ++ [rbrace]
            = dumpsPair k v ++ (',' :: ' ' :: (dumpsPairs (p' :: ps') ++ [rbrace])) := by
          show (dumpsPair k v ++ ',' :: ' ' :: dumpsPairs (p' :: ps')) ++ [rbrace] = _
          simp [List.append_assoc]
        rw [hshape, parsePairs_succ,
          parsePair_dumpsPair k v (',' :: ' ' :: (dumpsPairs (p' :: ps') ++ [rbrace]))
            (by rfl)]
        simp only [ih fuel (by simp) (by simpa using hlen)]
        simp [show ¬ (',' = rbrace) by decide]

theorem dumpsPairs_length_ge : ∀ m : SectorMap, m.length ≤ (dumpsPairs m).length := by
  intro m
  induction m with
  | nil => simp [dumpsPairs]
  | cons p ps ih =>
    obtain ⟨k, v⟩ := p
    cases ps with
    | nil => simp [dumpsPairs, dumpsPair]
    | cons p' ps' =>
      have hsh : dumpsPairs ((k, v) :: p' :: ps')
          = dumpsPair k v ++ ',' :: ' ' :: dumpsPairs (p' :: ps') := rfl
      rw [hsh]
      simp only [List.length_cons, List.length_append, dumpsPair] at ih ⊢
      simp at ih ⊢
      omega

theorem loads_dumps (m : SectorMap) : loads (dumps m) = some m := by
  cases m with
  | nil => rfl
  | cons p ps =>
    obtain ⟨k, v⟩ := p
    obtain ⟨t, ht⟩ : ∃ t, dumpsPairs ((k, v) :: ps) = dquote :: t := by
      cases ps with
      | nil => exact ⟨_, rfl⟩
      | cons _ _ => exact ⟨_, rfl⟩
    have hge := dumpsPairs_length_ge ((k, v) :: ps)
    simp only [List.length_cons] at hge
    have hlen : ((k, v) :: ps).length ≤ (dumps ((k, v) :: ps)).length := by
      simp only [dumps, List.length_cons, List.length_append, List.length_nil]
      omega
    have hdqr : ¬ (dquote = rbrace ∧ t ++ [rbrace] = []) := by
      rintro ⟨h, -⟩
      exact absurd h (by decide)
    show loads (lbrace :: (dumpsPairs ((k, v) :: ps) ++ [rbrace])) = _
    rw [loads.eq_def]
    simp only [if_pos rfl]
    rw [ht, List.cons_append]
    simp only [if_neg hdqr]
    rw [← List.cons_append, ← ht]
    rw [parsePairs_dumpsPairs ((k, v) :: ps) _ (by simp) (by simpa [dumps] using hlen)]
    simp


/-! ### Shape lemmas for the list endpoint -/

theorem rowView_fields (r : EvalRow) (v : EvalView) (h : rowView r = some v) :
    v.id = r.id ∧ v.timestamp = r.timestamp := by
  unfold rowView at h
  split at h
  · simp only [Option.some.injEq] at h
    subst h
    exact ⟨rfl, rfl⟩
  · split at h
    · simp only [Option.some.injEq] at h
      subst h
      exact ⟨rfl, rfl⟩
    · rcases Option.map_eq_some'.mp h with ⟨m, _, hv⟩
      subst hv
      exact ⟨rfl, rfl⟩

theorem buildViews_fields :
    ∀ (l : List EvalRow) (vs : List EvalView), buildViews l = some vs →
    vs.map EvalView.timestamp = l.map EvalRow.timestamp ∧
    vs.map EvalView.id = l.map EvalRow.id := by
  intro l
  induction l with
  | nil =>
    intro vs h
    simp only [buildViews, Option.some.injEq] at h
    subst h
    simp
  | cons r rs ih =>
    intro vs h
    rcases hv : rowView r with _ | v
    · simp [buildViews, hv] at h
    · rcases hb : buildViews rs with _ | vs'
      · simp [buildViews, hv, hb] at h
      · simp only [buildViews, hv, hb, Option.some_bind, Option.some.injEq] at h
        subst h
        obtain ⟨hfid, hfts⟩ := rowView_fields r v hv
        obtain ⟨hts, hid⟩ := ih vs' hb
        simp [List.map, hfid, hfts, hts, hid]

theorem buildViews_mem :
    ∀ (l : List EvalRow) (vs : List EvalView) (r : EvalRow) (v : EvalView),
    buildViews l = some vs → r ∈ l → rowView r = some v → v ∈ vs := by
  intro l
  induction l with
  | nil =>
    intro vs r v _ hr
    simp at hr
  | cons r0 rs ih =>
    intro vs r v h hr hv
    rcases hv0 : rowView r0 with _ | v0
    · simp [buildViews, hv0] at h
    · rcases hb : buildViews rs with _ | vs'
      · simp [buildViews, hv0, hb] at h
      · simp only [buildViews, hv0, hb, Option.some_bind, Option.some.injEq] at h
        subst h
        rcases List.mem_cons.mp hr with hr0 | hrs
        · subst hr0
          rw [hv0] at hv
          simp only [Option.some.injEq] at hv
          subst hv
          exact List.mem_cons_self _ _
        · exact List.mem_cons_of_mem _ (ih vs' r v hb hrs hv)

/-! ### Claims -/

/-- C9: for every device identifier with no row in the vote-control
table, `has_voted_today` returns false without raising an error. -/
theorem c9_unknown_device_false (now : Int) (st : DBState) (d : String)
    (h : lookupVote st.controle_votacao d = none) :
    has_voted_today now st d = false := by
  simp [has_voted_today, has_voted_today_from, h]

theorem c9_unknown_device_false_witness :
    lookupVote (DBState.mk [] [] []).controle_votacao "dev-unknown" = none ∧
    has_voted_today 0 (DBState.mk [] [] []) "dev-unknown" = false :=
  ⟨rfl, c9_unknown_device_false 0 (DBState.mk [] [] []) "dev-unknown" rfl⟩

/-- C7: when the store read fails, and when the stored `ultimo_voto` is
unparseable, `has_voted_today` neither raises nor propagates an error:
it evaluates to false (the `except` branch logs the cause and returns
`False`; the log side effect is outside the pure embedding). -/
theorem c7_degrade_to_false :
    (∀ (now : Int) (e : String), has_voted_today_from now (.error e) = false) ∧
    (∀ (now : Int) (st : DBState) (d : String) (row : VoteRow),
      lookupVote st.controle_votacao d = some row →
      parse_iso (replaceZ row.ultimo_voto.data) = none →
      has_voted_today now st d = false) := by
  constructor
  · intro now e
    rfl
  · intro now st d row hl hp
    simp [has_voted_today, has_voted_today_from, hl, hp]

theorem c7_degrade_to_false_witness :
    has_voted_today_from 0 (.error "database is unreachable") = false ∧
    (lookupVote (DBState.mk [] [VoteRow.mk "d1" "not-a-date"] []).controle_votacao "d1"
        = some (VoteRow.mk "d1" "not-a-date") ∧
     parse_iso (replaceZ ("not-a-date").data) = none ∧
     has_voted_today 0 (DBState.mk [] [VoteRow.mk "d1" "not-a-date"] []) "d1" = false) :=
  ⟨c7_degrade_to_false.1 0 "database is unreachable",
   by decide, by decide,
   c7_degrade_to_false.2 0 (DBState.mk [] [VoteRow.mk "d1" "not-a-date"] []) "d1"
     (VoteRow.mk "d1" "not-a-date") (by decide) (by decide)⟩

/-- C1 fails on the code: `has_voted_today` compares the calendar date
*written in* the stored timestamp (no conversion to São Paulo time)
against today's São Paulo date.  Witness input: the store holds
`2024-01-02T01:00:00Z`, i.e. the instant 2024-01-01 22:00 in São Paulo,
and "now" is 2024-01-01 23:00 São Paulo time — the same local calendar
day, so the claimed timezone-aware comparison yields true, but the code
yields false (the written date 2024-01-02 differs from 2024-01-01). -/
theorem c1_counterexample :
    has_voted_today (daysFromCivil (Date.mk 2024 1 2) * 1440 + 120)
      (DBState.mk [] [VoteRow.mk "dev-1" "2024-01-02T01:00:00Z"] []) "dev-1" = false ∧
    hasVotedTodaySpec (daysFromCivil (Date.mk 2024 1 2) * 1440 + 120)
      (DBState.mk [] [VoteRow.mk "dev-1" "2024-01-02T01:00:00Z"] []) "dev-1" = true := by
  constructor
  · decide
  · decide

/-- C1 (amended): `has_voted_today` returns true iff the calendar date
written in the stored `ultimo_voto` (its civil date fields after the
`Z` → `+00:00` rewrite, with no timezone conversion of the instant)
equals the current calendar date in `America/Sao_Paulo`. -/
theorem c1_same_day_uses_written_date
    (now : Int) (st : DBState) (d : String) (row : VoteRow) (dt : PyDateTime)
    (hl : lookupVote st.controle_votacao d = some row)
    (hp : parse_iso (replaceZ row.ultimo_voto.data) = some dt) :
    has_voted_today now st d = true ↔ dt.date = (get_brazil_time now).date := by
  simp [has_voted_today, has_voted_today_from, hl, hp, is_same_day, beq_iff_eq]

theorem c1_same_day_uses_written_date_witness :
    lookupVote (DBState.mk [] [VoteRow.mk "d1" "2024-05-10T09:00:00"] []).controle_votacao "d1"
      = some (VoteRow.mk "d1" "2024-05-10T09:00:00") ∧
    parse_iso (replaceZ ("2024-05-10T09:00:00").data)
      = some (PyDateTime.mk (Date.mk 2024 5 10) 9 0 0 none) ∧
    (has_voted_today (daysFromCivil (Date.mk 2024 5 10) * 1440 + 900)
        (DBState.mk [] [VoteRow.mk "d1" "2024-05-10T09:00:00"] []) "d1" = true ↔
      (Date.mk 2024 5 10) =
        (get_brazil_time (daysFromCivil (Date.mk 2024 5 10) * 1440 + 900)).date) :=
  ⟨by decide, by decide,
   c1_same_day_uses_written_date (daysFromCivil (Date.mk 2024 5 10) * 1440 + 900)
     (DBState.mk [] [VoteRow.mk "d1" "2024-05-10T09:00:00"] []) "d1"
     (VoteRow.mk "d1" "2024-05-10T09:00:00")
     (PyDateTime.mk (Date.mk 2024 5 10) 9 0 0 none) (by decide) (by decide)⟩

/-- C6: `reset_timer` empties the vote-control table and nothing else:
every device is eligible again, and the stored evaluations (hence the
list endpoint's output) are unchanged. -/
theorem c6_reset_frame (st : DBState) :
    (reset_timer st).controle_votacao = [] ∧
    (reset_timer st).avaliacoes = st.avaliacoes ∧
    (∀ (now : Int) (d : String), has_voted_today now (reset_timer st) d = false) ∧
    get_evaluations (reset_timer st) = get_evaluations st := by
  refine ⟨rfl, rfl, ?_, rfl⟩
  intro now d
  simp [has_voted_today, has_voted_today_from, reset_timer, lookupVote]

/-- C2: a valid submission from a device the eligibility check flags as
having voted today is rejected with the conflict outcome (HTTP 409,
distinct from 400 and 500), and neither the evaluations table nor the
vote-control table is modified. -/
theorem c2_already_voted_conflict
    (now : Int) (st : DBState) (p : Payload) (i did ts ag : String)
    (hid : p.id = some i) (hdid : p.dispositivoId = some did)
    (hts : p.timestamp = some ts) (hag : p.avaliacaoGeral = some ag)
    (hv : has_voted_today now st did = true) :
    submit_evaluation now st p = (.alreadyVoted, st) ∧
    (submit_evaluation now st p).1.status = 409 ∧
    (submit_evaluation now st p).2.avaliacoes = st.avaliacoes ∧
    (submit_evaluation now st p).2.controle_votacao = st.controle_votacao := by
  have hsub : submit_evaluation now st p = (.alreadyVoted, st) := by
    unfold submit_evaluation
    rw [hid, hdid, hts, hag]
    simp [hv]
  exact ⟨hsub, by rw [hsub]; rfl, by rw [hsub], by rw [hsub]⟩

theorem c2_already_voted_conflict_witness :
    (Payload.mk (some "a2") (some "d1") (some "2024-05-10T10:00:00") (some "bom")
        none none).id = some "a2" ∧
    has_voted_today (daysFromCivil (Date.mk 2024 5 10) * 1440 + 900)
      (DBState.mk [] [VoteRow.mk "d1" "2024-05-10T09:00:00"] []) "d1" = true ∧
    submit_evaluation (daysFromCivil (Date.mk 2024 5 10) * 1440 + 900)
      (DBState.mk [] [VoteRow.mk "d1" "2024-05-10T09:00:00"] [])
      (Payload.mk (some "a2") (some "d1") (some "2024-05-10T10:00:00") (some "bom")
        none none)
      = (.alreadyVoted, DBState.mk [] [VoteRow.mk "d1" "2024-05-10T09:00:00"] []) :=
  ⟨rfl, by decide,
   (c2_already_voted_conflict (daysFromCivil (Date.mk 2024 5 10) * 1440 + 900)
     (DBState.mk [] [VoteRow.mk "d1" "2024-05-10T09:00:00"] [])
     (Payload.mk (some "a2") (some "d1") (some "2024-05-10T10:00:00") (some "bom")
       none none)
     "a2" "d1" "2024-05-10T10:00:00" "bom" rfl rfl rfl rfl (by decide)).1⟩

/-- C3: a submission payload missing any of the required keys `id`,
`dispositivoId`, `timestamp`, `avaliacaoGeral` is rejected with the
missing-field outcome (HTTP 400) and the store is left untouched. -/
theorem c3_missing_field_rejected
    (now : Int) (st : DBState) (p : Payload)
    (h : p.id = none ∨ p.dispositivoId = none ∨ p.timestamp = none ∨
      p.avaliacaoGeral = none) :
    ∃ f, submit_evaluation now st p = (.missingField f, st) ∧
      (submit_evaluation now st p).1.status = 400 ∧
      (submit_evaluation now st p).2.avaliacoes = st.avaliacoes ∧
      (submit_evaluation now st p).2.controle_votacao = st.controle_votacao := by
  have hex : ∃ f, submit_evaluation now st p = (.missingField f, st) := by
    rcases hid : p.id with _ | i
    · exact ⟨"id", by unfold submit_evaluation; rw [hid]⟩
    rcases hdid : p.dispositivoId with _ | did
    · exact ⟨"dispositivoId", by unfold submit_evaluation; rw [hid, hdid]⟩
    rcases hts : p.timestamp with _ | ts
    · exact ⟨"timestamp", by unfold submit_evaluation; rw [hid, hdid, hts]⟩
    rcases hag : p.avaliacaoGeral with _ | ag
    · exact ⟨"avaliacaoGeral", by unfold submit_evaluation; rw [hid, hdid, hts, hag]⟩
    rcases h with h | h | h | h <;> simp_all
  obtain ⟨f, hf⟩ := hex
  exact ⟨f, hf, by rw [hf]; rfl, by rw [hf], by rw [hf]⟩

theorem c3_missing_field_rejected_witness :
    (Payload.mk none none none none none none).id = none ∧
    (∃ f, submit_evaluation 0 (DBState.mk [] [] [])
        (Payload.mk none none none none none none) = (.missingField f, DBState.mk [] [] []) ∧
      (submit_evaluation 0 (DBState.mk [] [] [])
        (Payload.mk none none none none none none)).1.status = 400 ∧
      (submit_evaluation 0 (DBState.mk [] [] [])
        (Payload.mk none none none none none none)).2.avaliacoes = [] ∧
      (submit_evaluation 0 (DBState.mk [] [] [])
        (Payload.mk none none none none none none)).2.controle_votacao = []) :=
  ⟨rfl, c3_missing_field_rejected 0 (DBState.mk [] [] [])
    (Payload.mk none none none none none none) (Or.inl rfl)⟩

/-- C8: a valid, eligible submission whose `id` collides with a stored
evaluation hits the `avaliacoes` primary-key constraint: the insert
raises `sqlite3.IntegrityError`, the handler answers 500, and the
existing row is not overwritten (the store is unchanged). -/
theorem c8_duplicate_id_persistence_error
    (now : Int) (st : DBState) (p : Payload) (i did ts ag : String)
    (hid : p.id = some i) (hdid : p.dispositivoId = some did)
    (hts : p.timestamp = some ts) (hag : p.avaliacaoGeral = some ag)
    (hv : has_voted_today now st did = false)
    (hdup : ∃ r ∈ st.avaliacoes, r.id = i) :
    submit_evaluation now st p = (.integrityError, st) ∧
    SubmitOutcome.integrityError.status = 500 := by
  have hany : (st.avaliacoes.any fun r => r.id == i) = true := by
    obtain ⟨r, hr, hri⟩ := hdup
    exact List.any_eq_true.mpr ⟨r, hr, by simp [hri]⟩
  refine ⟨?_, rfl⟩
  unfold submit_evaluation
  rw [hid, hdid, hts, hag]
  simp [hv, hany]

theorem c8_duplicate_id_persistence_error_witness :
    has_voted_today 0
      (DBState.mk [EvalRow.mk "a1" "d0" "2024-01-01T00:00:00" "bom" none none] [] [])
      "d9" = false ∧
    (∃ r ∈ (DBState.mk [EvalRow.mk "a1" "d0" "2024-01-01T00:00:00" "bom" none none] []
        []).avaliacoes, r.id = "a1") ∧
    submit_evaluation 0
      (DBState.mk [EvalRow.mk "a1" "d0" "2024-01-01T00:00:00" "bom" none none] [] [])
      (Payload.mk (some "a1") (some "d9") (some "2024-06-01T12:00:00") (some "otimo")
        none none)
      = (.integrityError,
         DBState.mk [EvalRow.mk "a1" "d0" "2024-01-01T00:00:00" "bom" none none] [] []) :=
  ⟨by decide, ⟨EvalRow.mk "a1" "d0" "2024-01-01T00:00:00" "bom" none none,
    by decide, rfl⟩,
   (c8_duplicate_id_persistence_error 0
     (DBState.mk [EvalRow.mk "a1" "d0" "2024-01-01T00:00:00" "bom" none none] [] [])
     (Payload.mk (some "a1") (some "d9") (some "2024-06-01T12:00:00") (some "otimo")
       none none)
     "a1" "d9" "2024-06-01T12:00:00" "otimo" rfl rfl rfl rfl (by decide)
     ⟨EvalRow.mk "a1" "d0" "2024-01-01T00:00:00" "bom" none none, by decide, rfl⟩).1⟩

/-- C4: for every store state, the statistics report the row count, a
distribution that maps exactly the distinct `avaliacao_geral` values
present to their occurrence counts (no zero-fill), and the count of
rows with a present, non-empty feedback. -/
theorem c4_statistics_correct (now : Int) (st : DBState) :
    (get_statistics now st).totalAvaliacoes = st.avaliacoes.length ∧
    (∀ (v : String) (c : Nat),
      (v, c) ∈ (get_statistics now st).distribuicao ↔
        (v ∈ st.avaliacoes.map (fun r => r.avaliacao_geral) ∧
         c = (st.avaliacoes.filter (fun r => r.avaliacao_geral == v)).length)) ∧
    (get_statistics now st).totalFeedbacks
      = (st.avaliacoes.filter feedbackNonEmpty).length := by
  refine ⟨rfl, ?_, rfl⟩
  intro v c
  unfold get_statistics
  constructor
  · intro h
    rcases List.mem_map.mp h with ⟨x, hx, hxe⟩
    have hx' : x ∈ st.avaliacoes.map (fun r => r.avaliacao_geral) :=
      List.mem_dedup.mp hx
    obtain ⟨h1, h2⟩ := Prod.mk.injEq .. ▸ hxe
    subst h1
    exact ⟨hx', h2.symm⟩
  · rintro ⟨hv, hc⟩
    exact List.mem_map.mpr ⟨v, List.mem_dedup.mpr hv, by rw [hc]⟩

theorem c4_statistics_correct_witness :
    (get_statistics 0 (DBState.mk
      [EvalRow.mk "e1" "d1" "2024-01-01T10:00:00" "otimo" none (some "muito bom"),
       EvalRow.mk "e2" "d2" "2024-01-01T11:00:00" "otimo" none (some ""),
       EvalRow.mk "e3" "d3" "2024-01-01T12:00:00" "regular" none none] [] [])).totalAvaliacoes
      = 3 ∧
    ("otimo", 2) ∈ (get_statistics 0 (DBState.mk
      [EvalRow.mk "e1" "d1" "2024-01-01T10:00:00" "otimo" none (some "muito bom"),
       EvalRow.mk "e2" "d2" "2024-01-01T11:00:00" "otimo" none (some ""),
       EvalRow.mk "e3" "d3" "2024-01-01T12:00:00" "regular" none none] [] [])).distribuicao ∧
    ("regular", 1) ∈ (get_statistics 0 (DBState.mk
      [EvalRow.mk "e1" "d1" "2024-01-01T10:00:00" "otimo" none (some "muito bom"),
       EvalRow.mk "e2" "d2" "2024-01-01T11:00:00" "otimo" none (some ""),
       EvalRow.mk "e3" "d3" "2024-01-01T12:00:00" "regular" none none] [] [])).distribuicao ∧
    (get_statistics 0 (DBState.mk
      [EvalRow.mk "e1" "d1" "2024-01-01T10:00:00" "otimo" none (some "muito bom"),
       EvalRow.mk "e2" "d2" "2024-01-01T11:00:00" "otimo" none (some ""),
       EvalRow.mk "e3" "d3" "2024-01-01T12:00:00" "regular" none none] [] [])).totalFeedbacks
      = 1 := by
  obtain ⟨h1, h2, h3⟩ := c4_statistics_correct 0 (DBState.mk
    [EvalRow.mk "e1" "d1" "2024-01-01T10:00:00" "otimo" none (some "muito bom"),
     EvalRow.mk "e2" "d2" "2024-01-01T11:00:00" "otimo" none (some ""),
     EvalRow.mk "e3" "d3" "2024-01-01T12:00:00" "regular" none none] [] [])
  refine ⟨h1.trans (by decide), (h2 "otimo" 2).mpr (by decide),
    (h2 "regular" 1).mpr (by decide), h3.trans (by decide)⟩

/-- C10: the list endpoint returns the stored evaluations sorted by the
client-supplied `timestamp` in descending string order (the store
compares TEXT bytewise), an ordering the spec does not state. -/
theorem c10_sorted_desc_by_timestamp (st : DBState) (vs : List EvalView)
    (h : get_evaluations st = some vs) :
    List.Pairwise (fun a b : EvalView => strLeB b.timestamp.data a.timestamp.data = true) vs ∧
    (vs.map EvalView.id).Perm (st.avaliacoes.map EvalRow.id) := by
  unfold get_evaluations at h
  obtain ⟨hts, hid⟩ := buildViews_fields _ _ h
  have hsorted : List.Sorted tsGe (List.insertionSort tsGe st.avaliacoes) :=
    List.sorted_insertionSort tsGe st.avaliacoes
  constructor
  · have hmap : List.Pairwise (fun a b : String => strLeB b.data a.data = true)
        ((List.insertionSort tsGe st.avaliacoes).map EvalRow.timestamp) :=
      List.pairwise_map.mpr hsorted
    rw [← hts] at hmap
    exact List.pairwise_map.mp hmap
  · rw [hid]
    exact (List.perm_insertionSort tsGe st.avaliacoes).map EvalRow.id

theorem c10_sorted_desc_by_timestamp_witness :
    get_evaluations (DBState.mk
      [EvalRow.mk "a" "d" "2024-01-01T00:00:00" "bom" none none,
       EvalRow.mk "b" "d" "2024-03-01T00:00:00" "otimo" none (some "x")] [] [])
      = some [EvalView.mk "b" "d" "2024-03-01T00:00:00" "otimo" [] "x",
              EvalView.mk "a" "d" "2024-01-01T00:00:00" "bom" [] ""] ∧
    (List.Pairwise (fun a b : EvalView => strLeB b.timestamp.data a.timestamp.data = true)
      [EvalView.mk "b" "d" "2024-03-01T00:00:00" "otimo" [] "x",
       EvalView.mk "a" "d" "2024-01-01T00:00:00" "bom" [] ""] ∧
     (([EvalView.mk "b" "d" "2024-03-01T00:00:00" "otimo" [] "x",
        EvalView.mk "a" "d" "2024-01-01T00:00:00" "bom" [] ""].map EvalView.id).Perm
       ((DBState.mk
        [EvalRow.mk "a" "d" "2024-01-01T00:00:00" "bom" none none,
         EvalRow.mk "b" "d" "2024-03-01T00:00:00" "otimo" none (some "x")] []
         []).avaliacoes.map EvalRow.id))) :=
  ⟨by decide,
   c10_sorted_desc_by_timestamp (DBState.mk
      [EvalRow.mk "a" "d" "2024-01-01T00:00:00" "bom" none none,
       EvalRow.mk "b" "d" "2024-03-01T00:00:00" "otimo" none (some "x")] [] [])
     [EvalView.mk "b" "d" "2024-03-01T00:00:00" "otimo" [] "x",
      EvalView.mk "a" "d" "2024-01-01T00:00:00" "bom" [] ""] (by decide)⟩

/-- C5: an accepted submission's sector mapping and feedback are stored
serialized and come back unchanged through the list endpoint's
deserialization; omitted optional fields are normalized on read to the
empty mapping and the empty string, never `NULL`. -/
theorem c5_roundtrip_normalization
    (now : Int) (st : DBState) (p : Payload) (i did ts ag : String)
    (hid : p.id = some i) (hdid : p.dispositivoId = some did)
    (hts : p.timestamp = some ts) (hag : p.avaliacaoGeral = some ag)
    (hv : has_voted_today now st did = false)
    (hdup : (st.avaliacoes.any fun r => r.id == i) = false) :
    ∃ r : EvalRow,
      (submit_evaluation now st p).1 = .ok i ∧
      (submit_evaluation now st p).2.avaliacoes = st.avaliacoes ++ [r] ∧
      rowView r = some ⟨i, did, ts, ag, p.setores.getD [], p.feedback.getD ""⟩ ∧
      (∀ vs, get_evaluations (submit_evaluation now st p).2 = some vs →
        (⟨i, did, ts, ag, p.setores.getD [], p.feedback.getD ""⟩ : EvalView) ∈ vs) := by
  have hsub : submit_evaluation now st p =
      (.ok i,
       { avaliacoes := st.avaliacoes ++
           [⟨i, did, ts, ag, some (dumps (p.setores.getD [])),
             some (p.feedback.getD "")⟩],
         controle_votacao := upsertVote st.controle_votacao ⟨did, ts⟩,
         logs_sistema := st.logs_sistema ++
           [⟨"AVALIACAO_ENVIADA", "Dispositivo: " ++ did ++ ", Avaliação: " ++ ag⟩] }) := by
    unfold submit_evaluation
    rw [hid, hdid, hts, hag]
    simp [hv, hdup]
  have hne : ¬ (dumps (p.setores.getD []) = []) := by
    simp [dumps]
  have hview : rowView (⟨i, did, ts, ag, some (dumps (p.setores.getD [])),
        some (p.feedback.getD "")⟩ : EvalRow)
      = some ⟨i, did, ts, ag, p.setores.getD [], p.feedback.getD ""⟩ := by
    unfold rowView
    simp [if_neg hne, loads_dumps, Option.map_some']
  refine ⟨⟨i, did, ts, ag, some (dumps (p.setores.getD [])), some (p.feedback.getD "")⟩,
    by rw [hsub], by rw [hsub], hview, ?_⟩
  intro vs hvs
  unfold get_evaluations at hvs
  refine buildViews_mem _ vs _ _ hvs ?_ hview
  rw [List.mem_insertionSort, hsub]
  simp

theorem c5_roundtrip_normalization_witness :
    has_voted_today 0 (DBState.mk [] [] []) "d1" = false ∧
    ((DBState.mk [] [] []).avaliacoes.any fun r =>
      r.id == "a1") = false ∧
    (∃ r : EvalRow,
      (submit_evaluation 0 (DBState.mk [] [] [])
        (Payload.mk (some "a1") (some "d1") (some "2024-05-10T09:00:00") (some "otimo")
          (some [("forno".data, 5), ("moagem".data, 3)]) (some "muito bom"))).1
        = .ok "a1" ∧
      (submit_evaluation 0 (DBState.mk [] [] [])
        (Payload.mk (some "a1") (some "d1") (some "2024-05-10T09:00:00") (some "otimo")
          (some [("forno".data, 5), ("moagem".data, 3)]) (some "muito bom"))).2.avaliacoes
        = [] ++ [r] ∧
      rowView r = some ⟨"a1", "d1", "2024-05-10T09:00:00", "otimo",
        (Payload.mk (some "a1") (some "d1") (some "2024-05-10T09:00:00") (some "otimo")
          (some [("forno".data, 5), ("moagem".data, 3)]) (some "muito bom")).setores.getD [],
        (Payload.mk (some "a1") (some "d1") (some "2024-05-10T09:00:00") (some "otimo")
          (some [("forno".data, 5), ("moagem".data, 3)]) (some "muito bom")).feedback.getD ""⟩ ∧
      (∀ vs, get_evaluations (submit_evaluation 0 (DBState.mk [] [] [])
          (Payload.mk (some "a1") (some "d1") (some "2024-05-10T09:00:00") (some "otimo")
            (some [("forno".data, 5), ("moagem".data, 3)]) (some "muito bom"))).2 = some vs →
        (⟨"a1", "d1", "2024-05-10T09:00:00", "otimo",
          (Payload.mk (some "a1") (some "d1") (some "2024-05-10T09:00:00") (some "otimo")
            (some [("forno".data, 5), ("moagem".data, 3)]) (some "muito bom")).setores.getD [],
          (Payload.mk (some "a1") (some "d1") (some "2024-05-10T09:00:00") (some "otimo")
            (some [("forno".data, 5), ("moagem".data, 3)]) (some "muito bom")).feedback.getD ""⟩
            : EvalView) ∈ vs)) :=
  ⟨rfl, rfl,
   c5_roundtrip_normalization 0 (DBState.mk [] [] [])
     (Payload.mk (some "a1") (some "d1") (some "2024-05-10T09:00:00") (some "otimo")
       (some [("forno".data, 5), ("moagem".data, 3)]) (some "muito bom"))
     "a1" "d1" "2024-05-10T09:00:00" "otimo" rfl rfl rfl rfl rfl rfl⟩
